import Mathlib

/-!
# nyc-taxi-upload: `upload.go`

A shallow embedding of `translateRow` and of the batching loop of `main`
(`src/upload.go`), followed by the properties proved about them.

The Go standard-library calls the program makes (`time.Parse`, `Time.Format`,
`strconv.ParseFloat`, `json.Marshal`) are parameters of the embedding, collected
in `Lib`. The CSV reader and the HTTP client are the environment: the first is a
list of read results, the second a function giving the outcome of the n-th upload.
Logging is not modelled.
-/

namespace Upload

/-! ## Data model (upload.go, lines 18-57) -/

/-- The `Position` struct; `F` stands for `float64`. -/
structure Position (F : Type) where
  Latitude : F
  Longitude : F
deriving DecidableEq, Repr

/-- The `ToSend` struct. -/
structure ToSend (F : Type) where
  DropoffTime : String
  PickupTime : String
  StartBlock : String
  StartTract : String
  StartCounty : String
  EndBlock : String
  EndTract : String
  EndCounty : String
  StartCoords : Position F
  EndCoords : Position F
deriving DecidableEq, Repr

/-- The `Config` struct. The column indices are Go `int`s, so they may be negative. -/
structure Config where
  ESAddress : String
  InputAddress : String
  TimeFormat : String
  StartLat : Int
  StartLong : Int
  PickupTime : Int
  StartBlock : Int
  StartTract : Int
  StartCounty : Int
  DropoffTime : Int
  EndLat : Int
  EndLong : Int
  EndBlock : Int
  EndTract : Int
  EndCounty : Int
deriving DecidableEq, Repr

/-- The error values `translateRow` can hand back: the `*time.ParseError` of
`time.Parse(layout, value)` and the `*strconv.NumError` of `strconv.ParseFloat(input, 64)`.
The program has no other error value for a row. -/
inductive GoError where
  | timeParseError (layout value : String)
  | numError (input : String)
deriving DecidableEq, Repr

/-- The standard-library functions `translateRow` and the encoder call.
`T` stands for `time.Time`, `F` for `float64`. -/
structure Lib (T F : Type) where
  /-- The zero value of `float64`, the content of a fresh `Position`. -/
  zeroFloat : F
  /-- The call `time.Parse(layout, value)`; `none` when it returns an error. -/
  timeParse : String → String → Option T
  /-- The call `t.Format(time.RFC3339)`. -/
  formatRFC3339 : T → String
  /-- The call `strconv.ParseFloat(s, 64)`: the float it returns (it returns one
  also when it fails) and whether its error is non-nil. -/
  parseFloat : String → F × Bool
  /-- The call `json.Marshal(record)`; `none` when it returns an error. -/
  jsonMarshal : ToSend F → Option String

/-- What a call of `translateRow` does: it returns its two named results `ts` and
`err`, or it panics with an index out of range. -/
inductive Outcome (F : Type) where
  | ret (ts : ToSend F) (err : Option GoError)
  | panic
deriving DecidableEq, Repr

/-- The index expression `row[i]`: `none` stands for the run-time panic
"index out of range", raised when `i < 0` or `len(row) <= i`. -/
def index (row : List String) (i : Int) : Option String :=
  if i < 0 then none else row.get? i.toNat

/-- The zero value of `ToSend`, which the named result `ts` holds on entry. -/
def zeroToSend {T F : Type} (L : Lib T F) : ToSend F :=
  { DropoffTime := "", PickupTime := "", StartBlock := "", StartTract := "",
    StartCounty := "", EndBlock := "", EndTract := "", EndCounty := "",
    StartCoords := ⟨L.zeroFloat, L.zeroFloat⟩, EndCoords := ⟨L.zeroFloat, L.zeroFloat⟩ }

/-! ## `translateRow` (upload.go, lines 73-128) -/

/-- Lines 96-125 of `translateRow`. The named result `err` is still `nil` here (it is
threaded as the argument `err`), and each of the four guards after a `ParseFloat`
tests `err`, not the `e` the call just returned. -/
def translateCoords {T F : Type} (L : Lib T F) (config : Config) (row : List String)
    (ts : ToSend F) (err : Option GoError) : Outcome F :=
  match index row config.StartLat with
  | none => .panic
  | some sLat =>
  let (startLat, e) := L.parseFloat sLat
  if err.isSome then .ret ts (if e then some (.numError sLat) else none) else
  match index row config.StartLong with
  | none => .panic
  | some sLong =>
  let (startLong, e) := L.parseFloat sLong
  if err.isSome then .ret ts (if e then some (.numError sLong) else none) else
  let ts := { ts with StartCoords := { Latitude := startLat, Longitude := startLong } }
  match index row config.EndLat with
  | none => .panic
  | some eLat =>
  let (endLat, e) := L.parseFloat eLat
  if err.isSome then .ret ts (if e then some (.numError eLat) else none) else
  match index row config.EndLong with
  | none => .panic
  | some eLong =>
  let (endLong, e) := L.parseFloat eLong
  if err.isSome then .ret ts (if e then some (.numError eLong) else none) else
  let ts := { ts with EndCoords := { Latitude := endLat, Longitude := endLong } }
  .ret ts err

/-- Lines 89-94 of `translateRow`: the six identifier columns, read in source order. -/
def translateIds {T F : Type} (L : Lib T F) (config : Config) (row : List String)
    (ts : ToSend F) (err : Option GoError) : Outcome F :=
  match index row config.StartBlock with
  | none => .panic
  | some v1 =>
  match index row config.StartTract with
  | none => .panic
  | some v2 =>
  match index row config.StartCounty with
  | none => .panic
  | some v3 =>
  match index row config.EndBlock with
  | none => .panic
  | some v4 =>
  match index row config.EndTract with
  | none => .panic
  | some v5 =>
  match index row config.EndCounty with
  | none => .panic
  | some v6 =>
  translateCoords L config row
    { ts with StartBlock := v1, StartTract := v2, StartCounty := v3,
              EndBlock := v4, EndTract := v5, EndCounty := v6 } err

/-- The function `translateRow`; `config` is the package-level variable it reads. -/
def translateRow {T F : Type} (L : Lib T F) (config : Config) (row : List String) :
    Outcome F :=
  let ts := zeroToSend L
  let err : Option GoError := none
  match index row config.DropoffTime with
  | none => .panic
  | some sDrop =>
  match L.timeParse config.TimeFormat sDrop with
  | none => .ret ts (some (.timeParseError config.TimeFormat sDrop))
  | some dt =>
  let ts := { ts with DropoffTime := L.formatRFC3339 dt }
  match index row config.PickupTime with
  | none => .panic
  | some sPick =>
  match L.timeParse config.TimeFormat sPick with
  | none => .ret ts (some (.timeParseError config.TimeFormat sPick))
  | some pt =>
  let ts := { ts with PickupTime := L.formatRFC3339 pt }
  translateIds L config row ts err

/-! ## A small instance of `Lib`

`demoLib` is used to evaluate the embedding on concrete rows. Each of its functions
accepts a small part of what the Go function accepts, with the result Go gives
there, and reports an error on every other input. -/

/-- A UTC civil time to the second: what `demoLib` uses for `time.Time`. -/
structure DemoTime where
  year : Nat
  month : Nat
  day : Nat
  hour : Nat
  minute : Nat
  second : Nat
deriving DecidableEq, Repr

/-- What `demoLib` uses for `float64`: a finite value kept as its shortest decimal
text, a NaN, or an infinity. -/
inductive DemoFloat where
  | dec (text : String)
  | nan
  | inf (negative : Bool)
deriving DecidableEq, Repr

/-- The value of a decimal digit. -/
def digitVal (c : Char) : Option Nat :=
  if '0' ≤ c ∧ c ≤ '9' then some (c.toNat - '0'.toNat) else none

/-- The number written by a list of decimal digits, `none` if one is not a digit. -/
def digitsVal : List Char → Option Nat
  | [] => some 0
  | cs => cs.foldl (fun acc c => match acc, digitVal c with
      | some n, some d => some (10 * n + d)
      | _, _ => none) (some 0)

/-- Days in a month of the Gregorian calendar. -/
def daysIn (year month : Nat) : Nat :=
  if month = 2 then
    (if year % 4 = 0 ∧ (year % 100 ≠ 0 ∨ year % 400 = 0) then 29 else 28)
  else if month = 4 ∨ month = 6 ∨ month = 9 ∨ month = 11 then 30 else 31

/-- The layout constant `time.RFC3339`. -/
def RFC3339 : String := "2006-01-02T15:04:05Z07:00"

/-- Parsing under the layout `time.RFC3339`, for values of the shape
`YYYY-MM-DDTHH:MM:SSZ` only. -/
def demoTimeParse (layout value : String) : Option DemoTime :=
  if layout ≠ RFC3339 then none else
  match value.data with
  | [y1, y2, y3, y4, '-', m1, m2, '-', d1, d2, 'T', h1, h2, ':', n1, n2, ':', s1, s2, 'Z'] =>
    match digitsVal [y1, y2, y3, y4], digitsVal [m1, m2], digitsVal [d1, d2],
          digitsVal [h1, h2], digitsVal [n1, n2], digitsVal [s1, s2] with
    | some y, some m, some d, some h, some n, some s =>
      if 1 ≤ m ∧ m ≤ 12 ∧ 1 ≤ d ∧ d ≤ daysIn y m ∧ h < 24 ∧ n < 60 ∧ s < 60
      then some ⟨y, m, d, h, n, s⟩ else none
    | _, _, _, _, _, _ => none
  | _ => none

/-- The decimal digits of `n`, padded with zeros on the left to `width` digits. -/
def padDigits (width n : Nat) : List Char :=
  let ds := (Nat.toDigits 10 n)
  List.replicate (width - ds.length) '0' ++ ds

/-- Formatting under the layout `time.RFC3339` of a UTC time. -/
def demoFormatRFC3339 (t : DemoTime) : String :=
  String.mk (padDigits 4 t.year ++ '-' :: padDigits 2 t.month ++ '-' :: padDigits 2 t.day
    ++ 'T' :: padDigits 2 t.hour ++ ':' :: padDigits 2 t.minute ++ ':' :: padDigits 2 t.second
    ++ ['Z'])

/-- Whether a list of characters is a plain decimal literal that `float64` and Go's
shortest formatting give back unchanged: an optional `-`, an integer part without a
leading zero (or `0`), an optional fraction of at most six digits that does not end
in `0`, at most fifteen digits in all. -/
def plainDecimal (cs : List Char) : Bool :=
  let body := match cs with
    | '-' :: rest => rest
    | _ => cs
  let ip := body.takeWhile (fun c => c ≠ '.')
  let fp := body.dropWhile (fun c => c ≠ '.')
  let digitsOnly := fun (l : List Char) => l.all (fun c => (digitVal c).isSome)
  let ipOk := ip ≠ [] ∧ digitsOnly ip ∧ (ip = ['0'] ∨ ip.head? ≠ some '0')
  let fpOk := match fp with
    | [] => true
    | _ :: ds => ds ≠ [] ∧ digitsOnly ds ∧ ds.getLast? ≠ some '0' ∧ ds.length ≤ 6
  decide ipOk && fpOk && decide (ip.length + (fp.length - 1) ≤ 15)

/-- The call `strconv.ParseFloat(s, 64)` on plain decimal literals, `NaN` and the
infinities; on a syntax error Go returns the float `0` beside the error. -/
def demoParseFloat (s : String) : DemoFloat × Bool :=
  if s = "NaN" then (.nan, false)
  else if s = "Inf" ∨ s = "+Inf" then (.inf false, false)
  else if s = "-Inf" then (.inf true, false)
  else if plainDecimal s.data then (.dec s, false)
  else (.dec "0", true)

/-- One hexadecimal digit, lower case. -/
def hexDigit (n : Nat) : Char :=
  if n < 10 then Char.ofNat ('0'.toNat + n) else Char.ofNat ('a'.toNat + (n - 10))

/-- The escape sequence of `encoding/json` for a character of a string, with its
default HTML escaping. -/
def jsonEscapeChar (c : Char) : List Char :=
  if c = '"' then ['\\', '"']
  else if c = '\\' then ['\\', '\\']
  else if c = '\n' then ['\\', 'n']
  else if c = '\r' then ['\\', 'r']
  else if c = '\t' then ['\\', 't']
  else if c.toNat < 32 ∨ c = '<' ∨ c = '>' ∨ c = '&' then
    ['\\', 'u', '0', '0', hexDigit (c.toNat / 16), hexDigit (c.toNat % 16)]
  else if c.toNat = 0x2028 then "\\u2028".data
  else if c.toNat = 0x2029 then "\\u2029".data
  else [c]

/-- A JSON string literal. -/
def jsonString (s : String) : List Char :=
  '"' :: (s.data.flatMap jsonEscapeChar) ++ ['"']

/-- A JSON number, `none` for a NaN or an infinity, which `encoding/json` refuses. -/
def jsonFloat : DemoFloat → Option (List Char)
  | .dec text => some text.data
  | .nan => none
  | .inf _ => none

/-- The call `json.Marshal` on a `ToSend`: the fields in declaration order under
their `json` tags; an error when a coordinate is a NaN or an infinity. -/
def demoJsonMarshal (r : ToSend DemoFloat) : Option String :=
  match jsonFloat r.StartCoords.Latitude, jsonFloat r.StartCoords.Longitude,
        jsonFloat r.EndCoords.Latitude, jsonFloat r.EndCoords.Longitude with
  | some a, some b, some c, some d =>
    some (String.mk (
      "\x7b\"dropoff-time\":".data ++ jsonString r.DropoffTime
      ++ ",\"pickup-time\":".data ++ jsonString r.PickupTime
      ++ ",\"start-block\":".data ++ jsonString r.StartBlock
      ++ ",\"start-tract\":".data ++ jsonString r.StartTract
      ++ ",\"start-county\":".data ++ jsonString r.StartCounty
      ++ ",\"end-block\":".data ++ jsonString r.EndBlock
      ++ ",\"end-tract\":".data ++ jsonString r.EndTract
      ++ ",\"end-county\":".data ++ jsonString r.EndCounty
      ++ ",\"start-coords\":\x7b\"lat\":".data ++ a ++ ",\"lon\":".data ++ b
      ++ "\x7d,\"end-coords\":\x7b\"lat\":".data ++ c ++ ",\"lon\":".data ++ d
      ++ "\x7d\x7d".data))
  | _, _, _, _ => none

/-- The sample library. -/
def demoLib : Lib DemoTime DemoFloat where
  zeroFloat := .dec "0"
  timeParse := demoTimeParse
  formatRFC3339 := demoFormatRFC3339
  parseFloat := demoParseFloat
  jsonMarshal := demoJsonMarshal

/-- A mapping for rows of twelve columns: pickup time, dropoff time, the three start
identifiers, the three end identifiers, start latitude and longitude, end latitude and
longitude. -/
def demoConfig : Config where
  ESAddress := "http://localhost:9200/trips/trip/_bulk"
  InputAddress := "./trips.csv"
  TimeFormat := RFC3339
  PickupTime := 0
  DropoffTime := 1
  StartBlock := 2
  StartTract := 3
  StartCounty := 4
  EndBlock := 5
  EndTract := 6
  EndCounty := 7
  StartLat := 8
  StartLong := 9
  EndLat := 10
  EndLong := 11

/-- A well-formed row for `demoConfig`. -/
def demoRow : List String :=
  ["2021-01-01T08:00:00Z", "2021-01-01T08:20:00Z", "100", "200", "300", "110", "210", "310",
   "40.1", "-73.9", "40.2", "-74.05"]


/-! ## The batching loop of `main` (upload.go, lines 154-223) -/

/-- One call of `reader.Read()` before the end of the input: a row, or an error
other than `io.EOF`. The end of the list is `io.EOF`. -/
inductive ReadResult where
  | row (r : List String)
  | fail
deriving DecidableEq, Repr

/-- What the inner loop (lines 157-187) does: it leaves with the batch `b.Items`, the
flag `end` and the unread input, or the program panics (a reader error at line 167,
or an index out of range inside `translateRow`). -/
inductive BatchResult (F : Type) where
  | done (items : List (ToSend F)) (ended : Bool) (rest : List ReadResult)
  | panic
deriving DecidableEq, Repr

/-- The inner loop `for i := 0; i < 1000; i++`, with `n` iterations left and `items`
the batch so far. Both `continue` statements go on to the next iteration. The counter
`numberStarted` only feeds a log line and is left out. -/
def readBatch {T F : Type} (L : Lib T F) (config : Config) :
    Nat → List ReadResult → List (ToSend F) → BatchResult F
  | 0, src, items => .done items false src
  | _ + 1, [], items => .done items true []
  | _ + 1, .fail :: _, _ => .panic
  | n + 1, .row row :: src, items =>
    if row.length = 0 then readBatch L config n src items
    else match translateRow L config row with
      | .panic => .panic
      | .ret _ (some _) => readBatch L config n src items
      | .ret toSend none => readBatch L config n src (items ++ [toSend])

/-- The string `toSendString` of line 190. -/
def toSendString : String := "\x7b \"index\" :\x7b\x7d \x7d" ++ "\n"

/-- The encoding loop (lines 192-204): `byteArray` after the loop over `b.Items`.
A record that `json.Marshal` refuses is passed over. -/
def encode {T F : Type} (L : Lib T F) (items : List (ToSend F)) : String :=
  items.foldl (fun byteArray item =>
    match L.jsonMarshal item with
    | none => byteArray
    | some bytesToSend => (byteArray ++ toSendString) ++ (bytesToSend ++ "\n")) ""

/-- What lines 207-222 can do with one request. -/
inductive UploadOutcome where
  /-- The call `client.Do(req)` panics: `req` is nil when `http.NewRequest` failed,
  its error being discarded at line 207. -/
  | clientPanic
  /-- The call `client.Do(req)` returns an error. -/
  | transportFailure
  /-- The call `client.Do(req)` returns a response with this status code; `bodyRead`
  tells whether `ioutil.ReadAll(resp.Body)` succeeds (line 219 panics if not). -/
  | response (status : Int) (bodyRead : Bool)
deriving DecidableEq, Repr

/-- One request made by the loop: the batch it was encoded from and its body. -/
structure Put (F : Type) where
  items : List (ToSend F)
  body : String
deriving DecidableEq, Repr

/-- How a run of the loop ends. -/
inductive Status where
  | finished
  | panicked
  | outOfFuel
deriving DecidableEq, Repr

/-- A run of the loop: the requests made, in order, and how it ended. -/
structure RunResult (F : Type) where
  puts : List (Put F)
  status : Status
deriving DecidableEq, Repr

/-- Adds a request at the front of a run. -/
def RunResult.after {F : Type} (p : Put F) (r : RunResult F) : RunResult F :=
  ⟨p :: r.puts, r.status⟩

/-- The outer loop `for !end`, from its `k`-th iteration (counting from 0) with `src`
unread; `outcomes k` is what happens to the `k`-th request. After a transport
failure (`continue`) and after a response that was read, the loop condition is
tested again. -/
def mainLoop {T F : Type} (L : Lib T F) (config : Config) (outcomes : Nat → UploadOutcome) :
    Nat → List ReadResult → Nat → RunResult F
  | 0, _, _ => ⟨[], .outOfFuel⟩
  | fuel + 1, src, k =>
    match readBatch L config 1000 src [] with
    | .panic => ⟨[], .panicked⟩
    | .done items ended rest =>
      let byteArray := encode L items
      RunResult.after ⟨items, byteArray⟩ <|
        match outcomes k with
        | .clientPanic => ⟨[], .panicked⟩
        | .response _ false => ⟨[], .panicked⟩
        | .transportFailure =>
          if ended then ⟨[], .finished⟩ else mainLoop L config outcomes fuel rest (k + 1)
        | .response _ true =>
          if ended then ⟨[], .finished⟩ else mainLoop L config outcomes fuel rest (k + 1)

/-- The loop of `main` on the data rows `src` (what the reader yields after the
header). Every iteration that does not end the run reads 1000 rows, so
`src.length + 1` iterations are enough. -/
def run {T F : Type} (L : Lib T F) (config : Config) (outcomes : Nat → UploadOutcome)
    (src : List ReadResult) : RunResult F :=
  mainLoop L config outcomes (src.length + 1) src 0

/-- The outcome sequence in which every upload gets a `200` whose body is read. -/
def allSucceed : Nat → UploadOutcome := fun _ => .response 200 true


/-- The largest of the twelve configured column indices. -/
def maxIndex (config : Config) : Int :=
  max config.StartLat <| max config.StartLong <| max config.PickupTime <|
  max config.StartBlock <| max config.StartTract <| max config.StartCounty <|
  max config.DropoffTime <| max config.EndLat <| max config.EndLong <|
  max config.EndBlock <| max config.EndTract config.EndCounty

/-- A row of two columns whose dropoff time (column 1) parses: shorter than
`demoConfig` needs. -/
def shortRow : List String := ["2021-01-01T08:00:00Z", "2021-01-01T08:20:00Z"]

/-- The row `demoRow` with a pickup time (column 0) that does not parse. -/
def badPickupRow : List String :=
  ["yesterday", "2021-01-01T08:20:00Z", "100", "200", "300", "110", "210", "310",
   "40.1", "-73.9", "40.2", "-74.05"]

/-- The row `demoRow` with a start latitude (column 8) that is not a number. -/
def badCoordRow : List String :=
  ["2021-01-01T08:00:00Z", "2021-01-01T08:20:00Z", "100", "200", "300", "110", "210", "310",
   "abc", "-73.9", "40.2", "-74.05"]

/-- The record `translateRow` builds from `demoRow`. -/
def demoRecord : ToSend DemoFloat :=
  { DropoffTime := "2021-01-01T08:20:00Z", PickupTime := "2021-01-01T08:00:00Z",
    StartBlock := "100", StartTract := "200", StartCounty := "300",
    EndBlock := "110", EndTract := "210", EndCounty := "310",
    StartCoords := ⟨.dec "40.1", .dec "-73.9"⟩, EndCoords := ⟨.dec "40.2", .dec "-74.05"⟩ }


/-- The record a row contributes to a batch, in the words of the specification: that
of a row that is not empty and on which `translateRow` succeeds, none otherwise. -/
def keep {T F : Type} (L : Lib T F) (config : Config) (row : List String) :
    Option (ToSend F) :=
  if row.length = 0 then none
  else match translateRow L config row with
    | .ret ts none => some ts
    | _ => none

/-- Whether the inner loop panics on a row: it is not empty and `translateRow` runs
into an index out of range. -/
def rowPanics {T F : Type} (L : Lib T F) (config : Config) (row : List String) : Bool :=
  if row.length = 0 then false
  else match translateRow L config row with
    | .panic => true
    | .ret _ _ => false

/-- The upload outcomes after which the loop goes on: a transport failure, or a
response (of any status code) whose body is read. -/
def UploadOutcome.survivable : UploadOutcome → Bool
  | .clientPanic => false
  | .transportFailure => true
  | .response _ bodyRead => bodyRead

/-- The rows of an input cut as the specification describes the batches: consecutive
groups of 1000, then the rows that are left (none when the count is a multiple of
1000). -/
def chunks (rows : List (List String)) : List (List (List String)) :=
  (List.range (rows.length / 1000 + 1)).map fun i => (rows.drop (1000 * i)).take 1000

/-- The request a group of rows gives rise to. -/
def putOf {T F : Type} (L : Lib T F) (config : Config) (chunk : List (List String)) : Put F :=
  ⟨chunk.filterMap (keep L config), encode L (chunk.filterMap (keep L config))⟩

/-- The bulk format in the words of the specification: for each record that
serializes, the action line and the JSON line, each ended by a newline. -/
def pairs {T F : Type} (L : Lib T F) (items : List (ToSend F)) : List String :=
  (items.filterMap L.jsonMarshal).map fun json => toSendString ++ (json ++ "\n")

/-- Concatenation of a list of strings. -/
def concatAll : List String → String
  | [] => ""
  | p :: ps => p ++ concatAll ps

/-- The row `demoRow` with `NaN` as start latitude, which `ParseFloat` accepts. -/
def nanRow : List String :=
  ["2021-01-01T08:00:00Z", "2021-01-01T08:20:00Z", "100", "200", "300", "110", "210", "310",
   "NaN", "-73.9", "40.2", "-74.05"]

/-- The record `translateRow` builds from `nanRow`. -/
def nanRecord : ToSend DemoFloat :=
  { demoRecord with StartCoords := ⟨.nan, .dec "-73.9"⟩ }

/-- Upload outcomes that all let the loop go on: a transport failure first, then
responses with status 500. -/
def demoOutcomes : Nat → UploadOutcome := fun k =>
  if k = 0 then .transportFailure else .response 500 true


/-! ## Properties of `translateRow` -/

/-- An index expression that does not panic reads inside the row. -/
theorem index_some_lt {row : List String} {i : Int} {v : String}
    (h : index row i = some v) : i < (row.length : Int) := by
  unfold index at h
  split at h
  · simp at h
  · have h2 := List.get?_eq_some.mp h
    obtain ⟨hlt, -⟩ := h2
    omega

/-- An index expression reads the row at the index it is given. -/
theorem index_some_get {row : List String} {i : Int} {v : String}
    (h : index row i = some v) : 0 ≤ i ∧ row.get? i.toNat = some v := by
  unfold index at h
  split at h
  · simp at h
  · exact ⟨by omega, h⟩

/-- The coordinate stage started with a nil `err` never returns an error. -/
theorem translateCoords_err {T F : Type} (L : Lib T F) (config : Config) (row : List String)
    (ts ts' : ToSend F) (e : Option GoError)
    (h : translateCoords L config row ts none = .ret ts' e) : e = none := by
  unfold translateCoords at h
  simp only [Option.isSome_none, Bool.false_eq_true, if_false] at h
  repeat' split at h
  all_goals first
    | (injection h with h1 h2; exact h2.symm)
    | cases h

/-- The identifier stage hands the coordinate stage a record whose six identifier
fields are the row's columns, and reads all six indices inside the row. -/
theorem translateIds_ret {T F : Type} (L : Lib T F) (config : Config) (row : List String)
    (ts ts' : ToSend F) (e : Option GoError)
    (h : translateIds L config row ts none = .ret ts' e) :
    ∃ v1 v2 v3 v4 v5 v6,
      index row config.StartBlock = some v1 ∧ index row config.StartTract = some v2 ∧
      index row config.StartCounty = some v3 ∧ index row config.EndBlock = some v4 ∧
      index row config.EndTract = some v5 ∧ index row config.EndCounty = some v6 ∧
      translateCoords L config row
        { ts with StartBlock := v1, StartTract := v2, StartCounty := v3,
                  EndBlock := v4, EndTract := v5, EndCounty := v6 } none = .ret ts' e := by
  unfold translateIds at h
  repeat' split at h
  all_goals first
    | cases h
    | exact ⟨_, _, _, _, _, _, by assumption, by assumption, by assumption, by assumption,
        by assumption, by assumption, h⟩

/-- The coordinate stage reads its four indices inside the row when it returns, and
leaves the eight text fields of the record as it found them. -/
theorem translateCoords_ret {T F : Type} (L : Lib T F) (config : Config) (row : List String)
    (ts ts' : ToSend F) (e : Option GoError)
    (h : translateCoords L config row ts none = .ret ts' e) :
    (∃ a b c d, index row config.StartLat = some a ∧ index row config.StartLong = some b ∧
      index row config.EndLat = some c ∧ index row config.EndLong = some d ∧
      ts'.StartCoords = ⟨(L.parseFloat a).1, (L.parseFloat b).1⟩ ∧
      ts'.EndCoords = ⟨(L.parseFloat c).1, (L.parseFloat d).1⟩) ∧
    ts'.DropoffTime = ts.DropoffTime ∧ ts'.PickupTime = ts.PickupTime ∧
    ts'.StartBlock = ts.StartBlock ∧ ts'.StartTract = ts.StartTract ∧
    ts'.StartCounty = ts.StartCounty ∧ ts'.EndBlock = ts.EndBlock ∧
    ts'.EndTract = ts.EndTract ∧ ts'.EndCounty = ts.EndCounty := by
  unfold translateCoords at h
  simp only [Option.isSome_none, Bool.false_eq_true, if_false] at h
  repeat' split at h
  all_goals
    cases h <;>
    exact ⟨⟨_, _, _, _, by assumption, by assumption, by assumption, by assumption,
      rfl, rfl⟩, rfl, rfl, rfl, rfl, rfl, rfl, rfl, rfl⟩

/-- What `translateRow` has done when it returns a nil error: both times parsed, and
the rest of the record came from the identifier and coordinate stages. -/
theorem translateRow_ok {T F : Type} (L : Lib T F) (config : Config) (row : List String)
    (ts : ToSend F) (h : translateRow L config row = .ret ts none) :
    ∃ sd dt sp pt,
      index row config.DropoffTime = some sd ∧ L.timeParse config.TimeFormat sd = some dt ∧
      index row config.PickupTime = some sp ∧ L.timeParse config.TimeFormat sp = some pt ∧
      translateIds L config row
        { zeroToSend L with DropoffTime := L.formatRFC3339 dt,
                            PickupTime := L.formatRFC3339 pt } none = .ret ts none := by
  unfold translateRow at h
  simp only at h
  repeat' split at h
  all_goals first
    | cases h
    | exact ⟨_, _, _, _, by assumption, by assumption, by assumption, by assumption, h⟩

/-- Whatever `translateRow` returns with a non-nil error is a time-parse error: no
coordinate error and no row-length error ever comes back. -/
theorem translateRow_err {T F : Type} (L : Lib T F) (config : Config) (row : List String)
    (ts : ToSend F) (e : GoError) (h : translateRow L config row = .ret ts (some e)) :
    ∃ s, e = .timeParseError config.TimeFormat s := by
  unfold translateRow at h
  simp only at h
  repeat' split at h
  all_goals first
    | (cases h; done)
    | (cases h; exact ⟨_, rfl⟩)
    | (exfalso
       obtain ⟨_, _, _, _, _, _, _, _, _, _, _, _, hc⟩ := translateIds_ret L config row _ _ _ h
       have := translateCoords_err L config row _ _ _ hc
       cases this)

/-- C1, counterexample. A row of two columns under a mapping whose largest index is 11:
`translateRow` panics with an index out of range (at `row[config.StartBlock]`, after
both times parsed) and returns no error value. -/
theorem translateRow_short_row_panics :
    (shortRow.length : Int) ≤ maxIndex demoConfig ∧
    translateRow demoLib demoConfig shortRow = .panic := by
  decide

/-- On a row whose length is at most the largest configured index, once both time
columns are read the identifier and coordinate stages panic: one of the indices read
after them lies outside the row. -/
theorem translateIds_short_row {T F : Type} (L : Lib T F) (config : Config)
    (row : List String) (h : (row.length : Int) ≤ maxIndex config) (sd sp : String)
    (hd : index row config.DropoffTime = some sd) (hp : index row config.PickupTime = some sp)
    (ts : ToSend F) : translateIds L config row ts none = .panic := by
  cases hres : translateIds L config row ts none with
  | panic => rfl
  | ret ts' e =>
    exfalso
    obtain ⟨v1, v2, v3, v4, v5, v6, h3, h4, h5, h6, h7, h8, hc⟩ :=
      translateIds_ret L config row _ _ _ hres
    obtain ⟨⟨a, b, c, d, h9, h10, h11, h12, -, -⟩, -⟩ :=
      translateCoords_ret L config row _ _ _ hc
    have := index_some_lt hd
    have := index_some_lt hp
    have := index_some_lt h3
    have := index_some_lt h4
    have := index_some_lt h5
    have := index_some_lt h6
    have := index_some_lt h7
    have := index_some_lt h8
    have := index_some_lt h9
    have := index_some_lt h10
    have := index_some_lt h11
    have := index_some_lt h12
    unfold maxIndex at h
    omega

/-- C1, as amended. On a row whose length is at most the largest configured index,
`translateRow` returns no record and no row-length error, and what it does is fixed by
the two time columns. It panics with an index out of range when the dropoff index is
outside the row, when the dropoff time parses and the pickup index is outside the row,
and when both times are read and parse (an index read after them is then outside the
row). It returns the dropoff time's parse error, with the zero record, when that
column is read and does not parse, and the pickup time's parse error, with the dropoff
time alone filled in, when the dropoff time parses and the pickup column is read and
does not parse. The string in a returned error is the column of the row at the dropoff
or pickup index, an index inside the row. -/
theorem translateRow_short_row {T F : Type} (L : Lib T F) (config : Config)
    (row : List String) (h : (row.length : Int) ≤ maxIndex config) :
    translateRow L config row =
      (match index row config.DropoffTime with
       | none => .panic
       | some sd =>
         match L.timeParse config.TimeFormat sd with
         | none => .ret (zeroToSend L) (some (.timeParseError config.TimeFormat sd))
         | some dt =>
           match index row config.PickupTime with
           | none => .panic
           | some sp =>
             match L.timeParse config.TimeFormat sp with
             | none => .ret { zeroToSend L with DropoffTime := L.formatRFC3339 dt }
                         (some (.timeParseError config.TimeFormat sp))
             | some _ => .panic) ∧
    (∀ ts : ToSend F, translateRow L config row ≠ .ret ts none) ∧
    (∀ (ts : ToSend F) (e : GoError), translateRow L config row = .ret ts (some e) →
      ∃ (i : Int) (s : String), (i = config.DropoffTime ∨ i = config.PickupTime) ∧
        0 ≤ i ∧ i < (row.length : Int) ∧ row.get? i.toNat = some s ∧
        L.timeParse config.TimeFormat s = none ∧
        e = .timeParseError config.TimeFormat s) := by
  have key : translateRow L config row =
      (match index row config.DropoffTime with
       | none => .panic
       | some sd =>
         match L.timeParse config.TimeFormat sd with
         | none => .ret (zeroToSend L) (some (.timeParseError config.TimeFormat sd))
         | some dt =>
           match index row config.PickupTime with
           | none => .panic
           | some sp =>
             match L.timeParse config.TimeFormat sp with
             | none => .ret { zeroToSend L with DropoffTime := L.formatRFC3339 dt }
                         (some (.timeParseError config.TimeFormat sp))
             | some _ => .panic) := by
    unfold translateRow
    cases hd : index row config.DropoffTime with
    | none => rfl
    | some sd =>
      cases hsd : L.timeParse config.TimeFormat sd with
      | none => simp only [hsd]
      | some dt =>
        cases hp : index row config.PickupTime with
        | none => simp only [hsd, hp]
        | some sp =>
          cases hsp : L.timeParse config.TimeFormat sp with
          | none => simp only [hsd, hp, hsp]
          | some pt =>
            simp only [hsd, hp, hsp]
            exact translateIds_short_row L config row h sd sp hd hp _
  refine ⟨key, ?_, ?_⟩
  · intro ts hret
    rw [key] at hret
    repeat' split at hret
    all_goals cases hret
  · intro ts e hret
    rw [key] at hret
    cases hd : index row config.DropoffTime with
    | none => simp only [hd] at hret; cases hret
    | some sd =>
      cases hsd : L.timeParse config.TimeFormat sd with
      | none =>
        simp only [hd, hsd] at hret
        cases hret
        exact ⟨config.DropoffTime, sd, Or.inl rfl, (index_some_get hd).1, index_some_lt hd,
          (index_some_get hd).2, hsd, rfl⟩
      | some dt =>
        cases hp : index row config.PickupTime with
        | none => simp only [hd, hsd, hp] at hret; cases hret
        | some sp =>
          cases hsp : L.timeParse config.TimeFormat sp with
          | none =>
            simp only [hd, hsd, hp, hsp] at hret
            cases hret
            exact ⟨config.PickupTime, sp, Or.inr rfl, (index_some_get hp).1,
              index_some_lt hp, (index_some_get hp).2, hsp, rfl⟩
          | some pt => simp only [hd, hsd, hp, hsp] at hret; cases hret

/-- C1, witness: a two-column row under `demoConfig` whose dropoff column (column 1)
is read and does not parse. -/
theorem translateRow_short_row_witness :
    ((["x", "y"] : List String).length : Int) ≤ maxIndex demoConfig ∧
    translateRow demoLib demoConfig ["x", "y"] =
      .ret (zeroToSend demoLib) (some (.timeParseError RFC3339 "y")) ∧
    (∀ ts : ToSend DemoFloat, translateRow demoLib demoConfig ["x", "y"] ≠ .ret ts none) :=
  ⟨by decide, (translateRow_short_row demoLib demoConfig ["x", "y"] (by decide)).1,
    (translateRow_short_row demoLib demoConfig ["x", "y"] (by decide)).2.1⟩

/-- C2, the code at the failing input. The start latitude `abc` is not a number, yet
`translateRow` returns a nil error and a record whose start latitude is the `0` that
`ParseFloat` returns beside its error, and the inner loop appends that record. -/
theorem translateRow_bad_coordinate :
    demoLib.parseFloat "abc" = (.dec "0", true) ∧
    translateRow demoLib demoConfig badCoordRow =
      .ret { demoRecord with StartCoords := ⟨.dec "0", .dec "-73.9"⟩ } none ∧
    readBatch demoLib demoConfig 1000 [.row badCoordRow] [] =
      .done [{ demoRecord with StartCoords := ⟨.dec "0", .dec "-73.9"⟩ }] true [] := by
  decide

/-- C3. When `translateRow` succeeds, the six identifier fields of the record are the
strings of the row at the configured indices. -/
theorem translateRow_identifiers {T F : Type} (L : Lib T F) (config : Config)
    (row : List String) (ts : ToSend F) (h : translateRow L config row = .ret ts none) :
    index row config.StartBlock = some ts.StartBlock ∧
    index row config.StartTract = some ts.StartTract ∧
    index row config.StartCounty = some ts.StartCounty ∧
    index row config.EndBlock = some ts.EndBlock ∧
    index row config.EndTract = some ts.EndTract ∧
    index row config.EndCounty = some ts.EndCounty := by
  obtain ⟨sd, dt, sp, pt, -, -, -, -, hids⟩ := translateRow_ok L config row ts h
  obtain ⟨v1, v2, v3, v4, v5, v6, h3, h4, h5, h6, h7, h8, hc⟩ :=
    translateIds_ret L config row _ _ _ hids
  obtain ⟨-, -, -, e1, e2, e3, e4, e5, e6⟩ := translateCoords_ret L config row _ _ _ hc
  simp only at e1 e2 e3 e4 e5 e6
  rw [e1, e2, e3, e4, e5, e6]
  exact ⟨h3, h4, h5, h6, h7, h8⟩

/-- C3, witness: `demoRow`, whose identifier columns are 2 to 7. -/
theorem translateRow_identifiers_witness :
    translateRow demoLib demoConfig demoRow = .ret demoRecord none ∧
    index demoRow 2 = some "100" ∧ index demoRow 3 = some "200" ∧
    index demoRow 4 = some "300" ∧ index demoRow 5 = some "110" ∧
    index demoRow 6 = some "210" ∧ index demoRow 7 = some "310" :=
  ⟨by decide, translateRow_identifiers demoLib demoConfig demoRow demoRecord (by decide)⟩

/-- C7, counterexample. The dropoff time parses and the pickup time does not:
`translateRow` returns the time-parse error together with a record whose dropoff
time is already filled in. -/
theorem translateRow_bad_pickup_keeps_dropoff :
    translateRow demoLib demoConfig badPickupRow =
      .ret { zeroToSend demoLib with DropoffTime := "2021-01-01T08:20:00Z" }
        (some (.timeParseError RFC3339 "yesterday")) ∧
    ({ zeroToSend demoLib with DropoffTime := "2021-01-01T08:20:00Z" } : ToSend DemoFloat)
      ≠ zeroToSend demoLib := by
  decide

/-- C7, as amended. With the dropoff and pickup indices inside the row and a time
that does not parse: if it is the dropoff time, `translateRow` returns its time-parse
error and the zero record; if the dropoff time parses and the pickup time does not,
it returns the pickup time's parse error and a record in which the dropoff time alone
is filled in. Either way the inner loop appends nothing for the row. -/
theorem translateRow_time_error {T F : Type} (L : Lib T F) (config : Config)
    (row : List String) (sd sp : String)
    (hd : index row config.DropoffTime = some sd)
    (hp : index row config.PickupTime = some sp)
    (hfail : L.timeParse config.TimeFormat sd = none ∨ L.timeParse config.TimeFormat sp = none) :
    translateRow L config row =
      (match L.timeParse config.TimeFormat sd with
       | none => .ret (zeroToSend L) (some (.timeParseError config.TimeFormat sd))
       | some dt => .ret { zeroToSend L with DropoffTime := L.formatRFC3339 dt }
                      (some (.timeParseError config.TimeFormat sp))) ∧
    ∀ (n : Nat) (src : List ReadResult) (items : List (ToSend F)),
      readBatch L config (n + 1) (.row row :: src) items = readBatch L config n src items := by
  have hne : row.length ≠ 0 := by
    have := index_some_lt hd
    have := (index_some_get hd).1
    omega
  have key : translateRow L config row =
      (match L.timeParse config.TimeFormat sd with
       | none => .ret (zeroToSend L) (some (.timeParseError config.TimeFormat sd))
       | some dt => .ret { zeroToSend L with DropoffTime := L.formatRFC3339 dt }
                      (some (.timeParseError config.TimeFormat sp))) := by
    unfold translateRow
    simp only [hd, hp]
    cases hsd : L.timeParse config.TimeFormat sd with
    | none => rfl
    | some dt =>
      rcases hfail with h | h
      · rw [hsd] at h; cases h
      · simp only [h]
  refine ⟨key, ?_⟩
  intro n src items
  rw [readBatch, if_neg hne, key]
  cases L.timeParse config.TimeFormat sd <;> rfl

/-- C7, witness: `badPickupRow`, whose pickup time is `yesterday`. -/
theorem translateRow_time_error_witness :
    translateRow demoLib demoConfig badPickupRow =
      (match demoLib.timeParse demoConfig.TimeFormat "2021-01-01T08:20:00Z" with
       | none => .ret (zeroToSend demoLib)
                   (some (.timeParseError demoConfig.TimeFormat "2021-01-01T08:20:00Z"))
       | some dt => .ret { zeroToSend demoLib with DropoffTime := demoLib.formatRFC3339 dt }
                      (some (.timeParseError demoConfig.TimeFormat "yesterday"))) ∧
    ∀ (n : Nat) (src : List ReadResult) (items : List (ToSend DemoFloat)),
      readBatch demoLib demoConfig (n + 1) (.row badPickupRow :: src) items =
        readBatch demoLib demoConfig n src items :=
  translateRow_time_error demoLib demoConfig badPickupRow "2021-01-01T08:20:00Z" "yesterday"
    (by decide) (by decide) (Or.inr (by decide))

/-! ## Properties of the encoder -/

/-- The encoding loop started from any `byteArray` appends the pairs to it. -/
theorem encode_foldl {T F : Type} (L : Lib T F) (items : List (ToSend F)) (acc : String) :
    items.foldl (fun byteArray item =>
      match L.jsonMarshal item with
      | none => byteArray
      | some bytesToSend => (byteArray ++ toSendString) ++ (bytesToSend ++ "\n")) acc
    = acc ++ concatAll (pairs L items) := by
  induction items generalizing acc with
  | nil => simp [pairs, concatAll, String.append_empty]
  | cons r rs ih =>
    rw [List.foldl_cons, ih]
    cases hr : L.jsonMarshal r with
    | none => simp [pairs, List.filterMap_cons, hr]
    | some json =>
      simp only [pairs, List.filterMap_cons, hr, List.map_cons, concatAll]
      simp only [String.append_assoc]

set_option maxRecDepth 20000 in
/-- C5, counterexample. A batch of one record whose start latitude is NaN (the record
of a row with `NaN` in that column): `json.Marshal` refuses it and the payload is
empty, not one action line and one JSON line. -/
theorem encode_nan_record_empty :
    translateRow demoLib demoConfig nanRow = .ret nanRecord none ∧
    encode demoLib [nanRecord] = "" ∧
    encode demoLib [demoRecord, nanRecord, demoRecord] = encode demoLib [demoRecord, demoRecord] := by
  decide

/-- C5, as amended. The payload is the concatenation, in batch order, of one pair per
record of the batch that `json.Marshal` accepts, a pair being the action line
`{ "index" :{} }` and the record's JSON, each ended by a newline. There are as many
pairs as records that serialize, N when all N do, and the empty batch gives the empty
payload. -/
theorem encode_eq_pairs {T F : Type} (L : Lib T F) (items : List (ToSend F)) :
    encode L items = concatAll (pairs L items) ∧
    pairs L items = (items.filterMap L.jsonMarshal).map
      (fun json => "\x7b \"index\" :\x7b\x7d \x7d\n" ++ (json ++ "\n")) ∧
    (pairs L items).length = (items.filter fun r => (L.jsonMarshal r).isSome).length ∧
    ((∀ r ∈ items, (L.jsonMarshal r).isSome = true) → (pairs L items).length = items.length) ∧
    encode L ([] : List (ToSend F)) = "" := by
  have hlen : (pairs L items).length = (items.filter fun r => (L.jsonMarshal r).isSome).length := by
    unfold pairs
    rw [List.length_map]
    induction items with
    | nil => rfl
    | cons r rs ih =>
      cases hr : L.jsonMarshal r <;> simp [List.filterMap_cons, List.filter_cons, hr, ih]
  refine ⟨?_, rfl, hlen, ?_, rfl⟩
  · have := encode_foldl L items ""
    rw [String.empty_append] at this
    exact this
  · intro hall
    rw [hlen, List.filter_eq_self.mpr hall]

/-! ## Properties of the inner loop -/

/-- The inner loop on rows that all read and none of which panics: it consumes the
first `n` rows, appends the records of those it keeps, and sets `end` exactly when
the input ran out before `n` rows were read. -/
theorem readBatch_rows {T F : Type} (L : Lib T F) (config : Config) (n : Nat) :
    ∀ (rows : List (List String)) (items : List (ToSend F)),
      (∀ r ∈ rows.take n, rowPanics L config r = false) →
      readBatch L config n (rows.map .row) items =
        .done (items ++ (rows.take n).filterMap (keep L config)) (decide (rows.length < n))
          ((rows.drop n).map .row) := by
  induction n with
  | zero => intro rows items _; simp [readBatch]
  | succ n ih =>
    intro rows items h
    cases rows with
    | nil => simp [readBatch]
    | cons r rs =>
      have hr : rowPanics L config r = false := h r (by simp)
      have hrs : ∀ x ∈ rs.take n, rowPanics L config x = false := fun x hx =>
        h x (by simp [List.take_succ_cons, hx])
      simp only [List.map_cons, readBatch, List.take_succ_cons, List.drop_succ_cons,
        List.length_cons, Nat.add_lt_add_iff_right]
      by_cases h0 : r.length = 0
      · rw [if_pos h0, ih rs items hrs]
        simp [List.filterMap_cons, keep, h0]
      · rw [if_neg h0]
        unfold rowPanics at hr
        rw [if_neg h0] at hr
        cases htr : translateRow L config r with
        | panic => rw [htr] at hr; cases hr
        | ret ts e =>
          cases e with
          | some e =>
            simp only []
            rw [ih rs items hrs]
            simp [List.filterMap_cons, keep, h0, htr]
          | none =>
            simp only []
            rw [ih rs _ hrs]
            simp [List.filterMap_cons, keep, h0, htr]

/-- The inner loop adds at most one record per iteration, and when it leaves at the
end of the input it has added fewer records than it had iterations. -/
theorem readBatch_length {T F : Type} (L : Lib T F) (config : Config) (n : Nat) :
    ∀ (src : List ReadResult) (items its : List (ToSend F)) (ended : Bool)
      (rest : List ReadResult),
      readBatch L config n src items = .done its ended rest →
      its.length ≤ items.length + n ∧ (ended = true → its.length < items.length + n) := by
  induction n with
  | zero =>
    intro src items its ended rest h
    simp only [readBatch] at h
    cases h
    simp
  | succ n ih =>
    intro src items its ended rest h
    cases src with
    | nil =>
      simp only [readBatch] at h
      cases h
      simp
    | cons x xs =>
      cases x with
      | fail => simp only [readBatch] at h; cases h
      | row r =>
        simp only [readBatch] at h
        split at h
        · obtain ⟨h1, h2⟩ := ih xs items its ended rest h
          exact ⟨by omega, fun he => by have := h2 he; omega⟩
        · split at h
          · cases h
          · obtain ⟨h1, h2⟩ := ih xs items its ended rest h
            exact ⟨by omega, fun he => by have := h2 he; omega⟩
          · obtain ⟨h1, h2⟩ := ih xs _ its ended rest h
            simp only [List.length_append, List.length_singleton] at h1 h2
            exact ⟨by omega, fun he => by have := h2 he; omega⟩

/-- The inner loop that leaves without reaching the end of the input has read exactly
`n` times. -/
theorem readBatch_rest {T F : Type} (L : Lib T F) (config : Config) (n : Nat) :
    ∀ (src : List ReadResult) (items its : List (ToSend F)) (rest : List ReadResult),
      readBatch L config n src items = .done its false rest →
      rest.length + n = src.length := by
  induction n with
  | zero =>
    intro src items its rest h
    simp only [readBatch] at h
    cases h
    simp
  | succ n ih =>
    intro src items its rest h
    cases src with
    | nil => simp only [readBatch] at h; cases h
    | cons x xs =>
      cases x with
      | fail => simp only [readBatch] at h; cases h
      | row r =>
        simp only [readBatch] at h
        split at h
        · have := ih xs items its rest h
          simp only [List.length_cons]; omega
        · split at h
          · cases h
          · have := ih xs items its rest h
            simp only [List.length_cons]; omega
          · have := ih xs _ its rest h
            simp only [List.length_cons]; omega

/-! ## Properties of the outer loop -/

/-- The outer loop given more iterations than there are unread rows does not run out
of them. -/
theorem mainLoop_fuel {T F : Type} (L : Lib T F) (config : Config)
    (outcomes : Nat → UploadOutcome) (fuel : Nat) :
    ∀ (src : List ReadResult) (k : Nat), src.length < fuel →
      (mainLoop L config outcomes fuel src k).status ≠ .outOfFuel := by
  induction fuel with
  | zero => intro src k h; omega
  | succ fuel ih =>
    intro src k h
    unfold mainLoop
    cases hrb : readBatch L config 1000 src [] with
    | panic => simp
    | done items ended rest =>
      cases ended with
      | true =>
        cases outcomes k with
        | clientPanic => simp [RunResult.after]
        | transportFailure => simp [RunResult.after]
        | response status bodyRead => cases bodyRead <;> simp [RunResult.after]
      | false =>
        have hrest := readBatch_rest L config 1000 src [] items rest hrb
        have hlt : rest.length < fuel := by omega
        have := ih rest (k + 1) hlt
        cases outcomes k with
        | clientPanic => simp [RunResult.after]
        | transportFailure => simpa [RunResult.after] using this
        | response status bodyRead =>
          cases bodyRead with
          | false => simp [RunResult.after]
          | true => simpa [RunResult.after] using this

/-- Every request of the outer loop carries a batch of at most 1000 records, and the
last request of a loop that finishes carries at most 999. -/
theorem mainLoop_sizes {T F : Type} (L : Lib T F) (config : Config)
    (outcomes : Nat → UploadOutcome) (fuel : Nat) :
    ∀ (src : List ReadResult) (k : Nat),
      (∀ p ∈ (mainLoop L config outcomes fuel src k).puts, p.items.length ≤ 1000) ∧
      ((mainLoop L config outcomes fuel src k).status = .finished →
        ∃ p, (mainLoop L config outcomes fuel src k).puts.getLast? = some p ∧
          p.items.length ≤ 999) := by
  induction fuel with
  | zero => intro src k; simp [mainLoop]
  | succ fuel ih =>
    intro src k
    unfold mainLoop
    cases hrb : readBatch L config 1000 src [] with
    | panic => simp
    | done items ended rest =>
      obtain ⟨hle, hlt⟩ := readBatch_length L config 1000 src [] items ended rest hrb
      simp only [List.length_nil, Nat.zero_add] at hle hlt
      obtain ⟨ih1, ih2⟩ := ih rest (k + 1)
      have step : ∀ r : RunResult F,
          ((∀ p ∈ r.puts, p.items.length ≤ 1000) ∧
            (r.status = .finished → ∃ p, r.puts.getLast? = some p ∧ p.items.length ≤ 999)) →
          ((∀ p ∈ (RunResult.after ⟨items, encode L items⟩ r).puts, p.items.length ≤ 1000) ∧
            ((RunResult.after ⟨items, encode L items⟩ r).status = .finished →
              ∃ p, (RunResult.after ⟨items, encode L items⟩ r).puts.getLast? = some p ∧
                p.items.length ≤ 999)) := by
        intro r ⟨h1, h2⟩
        refine ⟨?_, ?_⟩
        · intro p hp
          simp only [RunResult.after, List.mem_cons] at hp
          rcases hp with rfl | hp
          · exact hle
          · exact h1 p hp
        · intro hfin
          obtain ⟨p, hp, hp999⟩ := h2 hfin
          refine ⟨p, ?_, hp999⟩
          simp only [RunResult.after]
          cases hr : r.puts with
          | nil => rw [hr] at hp; simp at hp
          | cons q qs =>
            rw [hr] at hp
            rw [List.getLast?_cons_cons]
            exact hp
      have stop : (∀ p ∈ (RunResult.after ⟨items, encode L items⟩
            (⟨[], .finished⟩ : RunResult F)).puts, p.items.length ≤ 1000) ∧
          (ended = true → ∃ p, (RunResult.after ⟨items, encode L items⟩
            (⟨[], .finished⟩ : RunResult F)).puts.getLast? = some p ∧ p.items.length ≤ 999) := by
        refine ⟨?_, ?_⟩
        · intro p hp
          simp only [RunResult.after, List.mem_cons, List.mem_singleton, List.not_mem_nil,
            or_false] at hp
          rw [hp]; exact hle
        · intro he
          exact ⟨⟨items, encode L items⟩, by simp [RunResult.after], by
            have := hlt he
            show items.length ≤ 999
            omega⟩
      have dead : (∀ p ∈ (RunResult.after ⟨items, encode L items⟩
            (⟨[], .panicked⟩ : RunResult F)).puts, p.items.length ≤ 1000) ∧
          ((RunResult.after ⟨items, encode L items⟩
            (⟨[], .panicked⟩ : RunResult F)).status = .finished →
            ∃ p, (RunResult.after ⟨items, encode L items⟩
              (⟨[], .panicked⟩ : RunResult F)).puts.getLast? = some p ∧
              p.items.length ≤ 999) := by
        refine ⟨?_, ?_⟩
        · intro p hp
          simp only [RunResult.after, List.mem_cons, List.mem_singleton, List.not_mem_nil,
            or_false] at hp
          rw [hp]; exact hle
        · intro h; simp [RunResult.after] at h
      simp only []
      cases outcomes k with
      | clientPanic => exact dead
      | transportFailure =>
        cases ended with
        | true => exact ⟨stop.1, fun _ => stop.2 rfl⟩
        | false => exact step _ ⟨ih1, ih2⟩
      | response status bodyRead =>
        cases bodyRead with
        | false => exact dead
        | true =>
          cases ended with
          | true => exact ⟨stop.1, fun _ => stop.2 rfl⟩
          | false => exact step _ ⟨ih1, ih2⟩

/-- C4. Every batch the loop of `main` builds and sends holds at most 1000 records;
a batch during which the inner loop reaches the end of the input holds at most 999;
and so does the last batch of a run that finishes. -/
theorem batch_size_bounds {T F : Type} (L : Lib T F) (config : Config)
    (outcomes : Nat → UploadOutcome) (src : List ReadResult) :
    (∀ p ∈ (run L config outcomes src).puts, p.items.length ≤ 1000) ∧
    (∀ (input : List ReadResult) (items : List (ToSend F)) (ended : Bool)
        (rest : List ReadResult),
      readBatch L config 1000 input [] = .done items ended rest →
        items.length ≤ 1000 ∧ (ended = true → items.length ≤ 999)) ∧
    ((run L config outcomes src).status = .finished →
      ∃ p, (run L config outcomes src).puts.getLast? = some p ∧ p.items.length ≤ 999) := by
  refine ⟨(mainLoop_sizes L config outcomes _ src 0).1, ?_,
    (mainLoop_sizes L config outcomes _ src 0).2⟩
  intro input items ended rest h
  obtain ⟨h1, h2⟩ := readBatch_length L config 1000 input [] items ended rest h
  simp only [List.length_nil, Nat.zero_add] at h1 h2
  exact ⟨h1, fun he => by have := h2 he; omega⟩

/-- Fewer than 1000 rows make one group. -/
theorem chunks_small (rows : List (List String)) (h : rows.length < 1000) :
    chunks rows = [rows] := by
  unfold chunks
  have h0 : rows.length / 1000 = 0 := Nat.div_eq_of_lt h
  rw [h0]
  simp [List.range_succ, List.take_of_length_le (Nat.le_of_lt h)]

/-- With 1000 rows or more, the first group is the first 1000 rows and the others are
the groups of the rest. -/
theorem chunks_cons (rows : List (List String)) (h : 1000 ≤ rows.length) :
    chunks rows = rows.take 1000 :: chunks (rows.drop 1000) := by
  unfold chunks
  have hd : rows.length / 1000 = (rows.drop 1000).length / 1000 + 1 := by
    rw [List.length_drop]
    omega
  rw [hd, List.range_succ_eq_map, List.map_cons, List.map_map]
  simp only [Nat.mul_zero, List.drop_zero, List.cons.injEq, true_and]
  apply List.map_congr_left
  intro i _
  simp only [Function.comp, List.drop_drop]
  congr 2
  omega

/-- The groups have 1000 rows each, except the last, which has the remainder. -/
theorem chunks_lengths (rows : List (List String)) (i : Nat) (c : List (List String))
    (h : (chunks rows).get? i = some c) :
    c.length = if i < rows.length / 1000 then 1000 else rows.length % 1000 := by
  unfold chunks at h
  rw [List.get?_eq_getElem?, List.getElem?_map] at h
  cases hi : (List.range (rows.length / 1000 + 1))[i]? with
  | none => rw [hi] at h; cases h
  | some j =>
    rw [hi] at h
    simp only [Option.map_some', Option.some.injEq] at h
    have hj := List.getElem?_eq_some_iff.mp hi
    obtain ⟨hlt, hij⟩ := hj
    simp only [List.length_range] at hlt
    simp only [List.getElem_range] at hij
    subst hij
    subst h
    rw [List.length_take, List.length_drop]
    have hmod := Nat.div_add_mod rows.length 1000
    have hmlt := Nat.mod_lt rows.length (show 1000 > 0 by omega)
    split <;> omega

/-- The outer loop on rows that all read and none of which panics, with uploads that
all let it go on: it finishes, and its requests are those of the groups of rows. -/
theorem mainLoop_rows {T F : Type} (L : Lib T F) (config : Config)
    (outcomes : Nat → UploadOutcome) (ho : ∀ k, (outcomes k).survivable = true) (fuel : Nat) :
    ∀ (rows : List (List String)) (k : Nat), rows.length < fuel →
      (∀ r ∈ rows, rowPanics L config r = false) →
      mainLoop L config outcomes fuel (rows.map .row) k =
        ⟨(chunks rows).map (putOf L config), .finished⟩ := by
  induction fuel with
  | zero => intro rows k h; omega
  | succ fuel ih =>
    intro rows k hlen hp
    unfold mainLoop
    rw [readBatch_rows L config 1000 rows [] (fun r hr => hp r (List.mem_of_mem_take hr))]
    simp only [List.nil_append]
    have hok := ho k
    by_cases hsmall : rows.length < 1000
    · rw [chunks_small rows hsmall, List.take_of_length_le (Nat.le_of_lt hsmall)]
      cases hk : outcomes k with
      | clientPanic => rw [hk] at hok; cases hok
      | transportFailure => simp [RunResult.after, putOf, hsmall]
      | response status bodyRead =>
        rw [hk] at hok
        simp only [UploadOutcome.survivable] at hok
        subst hok
        simp [RunResult.after, putOf, hsmall]
    · have hbig : 1000 ≤ rows.length := by omega
      have hrec := ih (rows.drop 1000) (k + 1) (by rw [List.length_drop]; omega)
        (fun r hr => hp r (List.mem_of_mem_drop hr))
      simp only [List.map_drop] at hrec
      rw [chunks_cons rows hbig]
      cases hk : outcomes k with
      | clientPanic => rw [hk] at hok; cases hok
      | transportFailure => simp [RunResult.after, putOf, hsmall, hrec]
      | response status bodyRead =>
        rw [hk] at hok
        simp only [UploadOutcome.survivable] at hok
        subst hok
        simp [RunResult.after, putOf, hsmall, hrec]

/-- The outer loop makes the same run under upload outcomes that all let it go on as
when every upload succeeds. -/
theorem mainLoop_survivable {T F : Type} (L : Lib T F) (config : Config)
    (outcomes : Nat → UploadOutcome) (ho : ∀ k, (outcomes k).survivable = true) (fuel : Nat) :
    ∀ (src : List ReadResult) (k : Nat),
      mainLoop L config outcomes fuel src k = mainLoop L config allSucceed fuel src k := by
  induction fuel with
  | zero => intro src k; rfl
  | succ fuel ih =>
    intro src k
    unfold mainLoop
    cases readBatch L config 1000 src [] with
    | panic => rfl
    | done items ended rest =>
      have hok := ho k
      cases hk : outcomes k with
      | clientPanic => rw [hk] at hok; cases hok
      | transportFailure => simp only [allSucceed, ih rest (k + 1)]
      | response status bodyRead =>
        rw [hk] at hok
        simp only [UploadOutcome.survivable] at hok
        subst hok
        simp only [allSucceed, ih rest (k + 1)]

/-- C6, counterexample. A batch whose first row is too short for the mapping: the
rows that are not empty and translate are `demoRow` alone, but the inner loop
accumulates no batch, it panics inside `translateRow` on the short row. -/
theorem readBatch_short_row_panics :
    [shortRow, demoRow].filterMap (keep demoLib demoConfig) = [demoRecord] ∧
    readBatch demoLib demoConfig 1000 [.row shortRow, .row demoRow] [] = .panic := by
  decide

/-- C6, as amended. When `translateRow` panics on none of the rows consumed for a
batch (the first 1000 of the input, or all of it), the batch is the list, in input
order, of the records of the consumed rows that are not empty and on which
`translateRow` returns a nil error; the flag `end` is set exactly when the input
held fewer than 1000 rows. An empty row is passed over without a call of
`translateRow` (which would panic on it), and a row whose translation returns an
error is passed over as well. -/
theorem readBatch_accumulates {T F : Type} (L : Lib T F) (config : Config)
    (rows : List (List String))
    (h : ∀ r ∈ rows.take 1000, rowPanics L config r = false) :
    readBatch L config 1000 (rows.map .row) [] =
      .done ((rows.take 1000).filterMap (keep L config)) (decide (rows.length < 1000))
        ((rows.drop 1000).map .row) ∧
    (∀ (n : Nat) (src : List ReadResult) (items : List (ToSend F)),
      readBatch L config (n + 1) (.row [] :: src) items = readBatch L config n src items) ∧
    translateRow L config [] = .panic ∧
    (∀ (n : Nat) (src : List ReadResult) (items : List (ToSend F)) (row : List String)
        (ts : ToSend F) (e : GoError),
      row.length ≠ 0 → translateRow L config row = .ret ts (some e) →
      readBatch L config (n + 1) (.row row :: src) items = readBatch L config n src items) := by
  refine ⟨?_, ?_, ?_, ?_⟩
  · have := readBatch_rows L config 1000 rows [] h
    simpa using this
  · intro n src items
    simp [readBatch]
  · simp [translateRow, index]
  · intro n src items row ts e hne htr
    rw [readBatch, if_neg hne, htr]

/-- C6, witness: `demoRow`, an empty row, `badPickupRow` and `demoRow` again. -/
theorem readBatch_accumulates_witness :
    readBatch demoLib demoConfig 1000
        ([demoRow, [], badPickupRow, demoRow].map .row) [] =
      .done (([demoRow, [], badPickupRow, demoRow].take 1000).filterMap
          (keep demoLib demoConfig))
        (decide ([demoRow, [], badPickupRow, demoRow].length < 1000))
        ((([demoRow, [], badPickupRow, demoRow] : List (List String)).drop 1000).map .row) ∧
    (∀ (n : Nat) (src : List ReadResult) (items : List (ToSend DemoFloat)),
      readBatch demoLib demoConfig (n + 1) (.row [] :: src) items =
        readBatch demoLib demoConfig n src items) ∧
    translateRow demoLib demoConfig [] = .panic ∧
    (∀ (n : Nat) (src : List ReadResult) (items : List (ToSend DemoFloat)) (row : List String)
        (ts : ToSend DemoFloat) (e : GoError),
      row.length ≠ 0 → translateRow demoLib demoConfig row = .ret ts (some e) →
      readBatch demoLib demoConfig (n + 1) (.row row :: src) items =
        readBatch demoLib demoConfig n src items) :=
  readBatch_accumulates demoLib demoConfig [demoRow, [], badPickupRow, demoRow] (by decide)

set_option maxRecDepth 20000 in
/-- C9, counterexample. One data row and an upload that gets a response with status
200 whose body cannot be read: the run panics (line 219), where it finishes when the
upload succeeds. And with a row too short for the mapping the run panics before any
upload, whatever the upload outcomes. -/
theorem run_panics_on_unread_body :
    (run demoLib demoConfig (fun _ => .response 200 false) [.row demoRow]).status = .panicked ∧
    (run demoLib demoConfig allSucceed [.row demoRow]).status = .finished ∧
    run demoLib demoConfig allSucceed [.row shortRow] = ⟨[], .panicked⟩ := by
  decide

/-- C9, as amended. Under upload outcomes that are each a transport failure or a
response, of any status code, whose body is read, the run is the run made when every
upload succeeds: the same requests with the same payloads in the same order, each
batch sent once, and the same end. It does not run out of iterations, and it
finishes when every row is read and `translateRow` panics on none. -/
theorem run_survivable_outcomes {T F : Type} (L : Lib T F) (config : Config)
    (outcomes : Nat → UploadOutcome) (src : List ReadResult)
    (ho : ∀ k, (outcomes k).survivable = true) :
    run L config outcomes src = run L config allSucceed src ∧
    (run L config outcomes src).status ≠ .outOfFuel ∧
    (∀ rows : List (List String), src = rows.map .row →
      (∀ r ∈ rows, rowPanics L config r = false) →
      (run L config outcomes src).status = .finished) := by
  refine ⟨mainLoop_survivable L config outcomes ho _ src 0,
    mainLoop_fuel L config outcomes _ src 0 (Nat.lt_succ_self _), ?_⟩
  intro rows hsrc hp
  subst hsrc
  unfold run
  rw [mainLoop_rows L config outcomes ho _ rows 0 (by simp) hp]

/-- C9, witness: two rows, a transport failure for the only upload. -/
theorem run_survivable_outcomes_witness :
    run demoLib demoConfig demoOutcomes [.row demoRow, .row badPickupRow] =
      run demoLib demoConfig allSucceed [.row demoRow, .row badPickupRow] ∧
    (run demoLib demoConfig demoOutcomes [.row demoRow, .row badPickupRow]).status ≠ .outOfFuel ∧
    (∀ rows : List (List String), [ReadResult.row demoRow, .row badPickupRow] = rows.map .row →
      (∀ r ∈ rows, rowPanics demoLib demoConfig r = false) →
      (run demoLib demoConfig demoOutcomes [.row demoRow, .row badPickupRow]).status = .finished) :=
  run_survivable_outcomes demoLib demoConfig demoOutcomes [.row demoRow, .row badPickupRow]
    (by intro k; unfold demoOutcomes; split <;> rfl)

set_option maxRecDepth 20000 in
/-- C10, counterexample. One data row, read without a reader error, that is too
short for the mapping: the loop makes no upload, not `1 / 1000 + 1 = 1`. -/
theorem run_short_row_no_upload :
    (run demoLib demoConfig allSucceed ([shortRow].map .row)).puts.length = 0 ∧
    [shortRow].length / 1000 + 1 = 1 := by
  decide

/-- C10, as amended. On `n` data rows that are all read without a reader error and
on none of which `translateRow` panics, with uploads that each end in a transport
failure or a response whose body is read, the loop finishes after exactly
`n / 1000 + 1` uploads: one per group of rows, each group but the last of 1000 rows
(empty rows and rows whose translation fails included) and the last of `n % 1000`
rows; when `n` is a multiple of 1000 the last upload has an empty payload. -/
theorem run_upload_count {T F : Type} (L : Lib T F) (config : Config)
    (outcomes : Nat → UploadOutcome) (rows : List (List String))
    (hp : ∀ r ∈ rows, rowPanics L config r = false)
    (ho : ∀ k, (outcomes k).survivable = true) :
    run L config outcomes (rows.map .row) = ⟨(chunks rows).map (putOf L config), .finished⟩ ∧
    (run L config outcomes (rows.map .row)).puts.length = rows.length / 1000 + 1 ∧
    (∀ (i : Nat) (c : List (List String)), (chunks rows).get? i = some c →
      c.length = if i < rows.length / 1000 then 1000 else rows.length % 1000) ∧
    (rows.length % 1000 = 0 →
      ((run L config outcomes (rows.map .row)).puts.getLast?).map Put.body = some "") := by
  have hrun : run L config outcomes (rows.map .row) =
      ⟨(chunks rows).map (putOf L config), .finished⟩ := by
    unfold run
    exact mainLoop_rows L config outcomes ho _ rows 0 (by simp) hp
  have hlen : (chunks rows).length = rows.length / 1000 + 1 := by simp [chunks]
  refine ⟨hrun, ?_, chunks_lengths rows, ?_⟩
  · rw [hrun]; simp [hlen]
  · intro hmod
    rw [hrun]
    simp only [List.getLast?_map, Option.map_map]
    have hne : chunks rows ≠ [] := by
      intro h0; rw [h0] at hlen; simp at hlen
    obtain ⟨c, hc⟩ : ∃ c, (chunks rows).getLast? = some c := by
      cases hl : (chunks rows).getLast? with
      | none => exact absurd (List.getLast?_eq_none_iff.mp hl) hne
      | some c => exact ⟨c, rfl⟩
    have hidx : (chunks rows).get? (rows.length / 1000) = some c := by
      rw [List.getLast?_eq_getElem?, hlen] at hc
      simpa [List.get?_eq_getElem?] using hc
    have hclen := chunks_lengths rows _ c hidx
    simp only [Nat.lt_irrefl, if_false, hmod] at hclen
    have hcnil : c = [] := List.length_eq_zero.mp hclen
    rw [hc, hcnil]
    rfl

/-- C10, witness: three rows, of which one is empty and one fails to translate. -/
theorem run_upload_count_witness :
    run demoLib demoConfig demoOutcomes ([demoRow, [], badPickupRow].map .row) =
      ⟨(chunks [demoRow, [], badPickupRow]).map (putOf demoLib demoConfig), .finished⟩ ∧
    (run demoLib demoConfig demoOutcomes ([demoRow, [], badPickupRow].map .row)).puts.length =
      [demoRow, [], badPickupRow].length / 1000 + 1 ∧
    (∀ (i : Nat) (c : List (List String)),
      (chunks [demoRow, [], badPickupRow]).get? i = some c →
      c.length = if i < [demoRow, [], badPickupRow].length / 1000 then 1000
        else [demoRow, [], badPickupRow].length % 1000) ∧
    ([demoRow, [], badPickupRow].length % 1000 = 0 →
      ((run demoLib demoConfig demoOutcomes
        ([demoRow, [], badPickupRow].map .row)).puts.getLast?).map Put.body = some "") :=
  run_upload_count demoLib demoConfig demoOutcomes [demoRow, [], badPickupRow] (by decide)
    (by intro k; unfold demoOutcomes; split <;> rfl)

end Upload


